import Mathlib

/-!
Verification of the hint catalog in `src/build/arg/value_hint.rs`.

The Rust source defines a single enum `ValueHint` with thirteen unit variants
and one data-carrying variant `DynamicValues(String)`, a `Default`
implementation returning `Unknown`, and a `FromStr` implementation that
lowercases its input with `to_ascii_lowercase` and matches it against thirteen
fixed identifiers, returning an error string embedding the original input when
nothing matches.  The definitions below are a shallow embedding of that file.
-/

/-- The `ValueHint` enum from `src/build/arg/value_hint.rs`.  Thirteen unit
variants plus `DynamicValues`, which carries the external command string used
to produce completion candidates at runtime. -/
inductive ValueHint where
  | Unknown
  | Other
  | AnyPath
  | FilePath
  | DirPath
  | ExecutablePath
  | CommandName
  | CommandString
  | CommandWithArguments
  | Username
  | Hostname
  | Url
  | EmailAddress
  | DynamicValues (command : String)
deriving DecidableEq, Repr

deriving instance DecidableEq for Except

/-- ASCII-only lowercasing of one character, mirroring Rust
`char::to_ascii_lowercase`: code points 65..90 (the ASCII letters `A`..`Z`)
are shifted by 32 to `a`..`z`; every other character, non-ASCII letters
included, is left unchanged. -/
def asciiLowerChar (c : Char) : Char :=
  if 65 ≤ c.toNat ∧ c.toNat ≤ 90 then Char.ofNat (c.toNat + 32) else c

/-- ASCII-only lowercasing of a string, mirroring Rust
`str::to_ascii_lowercase` (applied characterwise; UTF-8 makes the byte-level
and character-level descriptions agree, since the bytes of non-ASCII
characters are all at least 128 and are untouched). -/
def toAsciiLowercase (s : String) : String :=
  String.mk (s.data.map asciiLowerChar)

/-- The arms of the `match` in the `FromStr` implementation, transcribed in
source order as an association list: matching a string against literal
patterns in order is exactly a first-match lookup in this ordered table. -/
def hintTable : List (String × ValueHint) :=
  [("unknown", .Unknown),
   ("other", .Other),
   ("anypath", .AnyPath),
   ("filepath", .FilePath),
   ("dirpath", .DirPath),
   ("executablepath", .ExecutablePath),
   ("commandname", .CommandName),
   ("commandstring", .CommandString),
   ("commandwitharguments", .CommandWithArguments),
   ("username", .Username),
   ("hostname", .Hostname),
   ("url", .Url),
   ("emailaddress", .EmailAddress)]

/-- The thirteen identifiers recognized by the parser, in the order of the
`match` arms of the `FromStr` implementation. -/
def hintIdentifiers : List String :=
  hintTable.map Prod.fst

/-- The thirteen unit variants (every variant except `DynamicValues`), in
declaration order, which is also the order of the `match` arms. -/
def unitHints : List ValueHint :=
  hintTable.map Prod.snd

/-- Embedding of `impl FromStr for ValueHint`: lowercase the input with the
ASCII-only lowercasing, match it against the thirteen literal arms in order
(the first-match lookup in `hintTable`), and on no match return the error
string built by `format!("unknown ValueHint: `{}`", s)` from the original
input `s`. -/
def ValueHint.from_str (s : String) : Except String ValueHint :=
  match hintTable.lookup (toAsciiLowercase s) with
  | some v => .ok v
  | none => .error ("unknown ValueHint: `" ++ s ++ "`")

/-- Embedding of `impl Default for ValueHint`: the default hint is
`Unknown`. -/
def ValueHint.default : ValueHint := .Unknown

/-- Embedding of the derived `PartialEq` on `ValueHint`: equal exactly when
the discriminants agree and, for two `DynamicValues`, the command strings
agree. -/
def ValueHint.beq : ValueHint → ValueHint → Bool
  | .Unknown, .Unknown => true
  | .Other, .Other => true
  | .AnyPath, .AnyPath => true
  | .FilePath, .FilePath => true
  | .DirPath, .DirPath => true
  | .ExecutablePath, .ExecutablePath => true
  | .CommandName, .CommandName => true
  | .CommandString, .CommandString => true
  | .CommandWithArguments, .CommandWithArguments => true
  | .Username, .Username => true
  | .Hostname, .Hostname => true
  | .Url, .Url => true
  | .EmailAddress, .EmailAddress => true
  | .DynamicValues a, .DynamicValues b => a == b
  | _, _ => false

/-- Modelled from the spec: the source has no identifier-rendering function
(only the parser exists in `src/build/arg/value_hint.rs`); spec section 3
defines the canonical textual identifier of every non-data variant as the
variant's name lowercased with no separators, and states that no canonical
form is exposed for `DynamicValues`. -/
def ValueHint.canonicalIdentifier : ValueHint → Option String
  | .Unknown => some "unknown"
  | .Other => some "other"
  | .AnyPath => some "anypath"
  | .FilePath => some "filepath"
  | .DirPath => some "dirpath"
  | .ExecutablePath => some "executablepath"
  | .CommandName => some "commandname"
  | .CommandString => some "commandstring"
  | .CommandWithArguments => some "commandwitharguments"
  | .Username => some "username"
  | .Hostname => some "hostname"
  | .Url => some "url"
  | .EmailAddress => some "emailaddress"
  | .DynamicValues _ => none

/-- The successful component of a parse result, used to compare two parses up
to the error payload. -/
def okPart : Except String ValueHint → Option ValueHint
  | .ok v => some v
  | .error _ => none

/-- Helper: a first-match lookup finds a value exactly when the key is among
the keys of the table. -/
lemma lookup_isSome_iff_mem {α β : Type} [BEq α] [LawfulBEq α] (k : α) :
    ∀ t : List (α × β), (t.lookup k).isSome = true ↔ k ∈ t.map Prod.fst := by
  intro t
  induction t with
  | nil => simp [List.lookup]
  | cons p rest ih =>
    obtain ⟨a, b⟩ := p
    by_cases h : (k == a) = true
    · simp only [List.lookup, h, Option.isSome_some, List.map_cons, List.mem_cons, true_iff]
      exact Or.inl (eq_of_beq h)
    · simp only [List.lookup, h, Bool.false_eq_true, List.map_cons, List.mem_cons]
      rw [Bool.not_eq_true] at h
      rw [ih]
      constructor
      · exact Or.inr
      · rintro (rfl | hm)
        · simp at h
        · exact hm

/-- Helper: every value found by a first-match lookup is among the values of
the table. -/
lemma lookup_mem_snd {α β : Type} [BEq α] [LawfulBEq α] (k : α) (v : β) :
    ∀ t : List (α × β), t.lookup k = some v → v ∈ t.map Prod.snd := by
  intro t
  induction t with
  | nil => simp [List.lookup]
  | cons p rest ih =>
    obtain ⟨a, b⟩ := p
    by_cases h : (k == a) = true
    · simp only [List.lookup, h, Option.some.injEq, List.map_cons, List.mem_cons]
      intro hv
      exact Or.inl hv.symm
    · simp only [List.lookup, h, Bool.false_eq_true, List.map_cons, List.mem_cons]
      intro hv
      exact Or.inr (ih hv)

/-- Helper: the successful component of a parse is exactly the table lookup
of the lowercased input. -/
lemma okPart_from_str (s : String) :
    okPart (ValueHint.from_str s) = hintTable.lookup (toAsciiLowercase s) := by
  unfold ValueHint.from_str
  cases h : hintTable.lookup (toAsciiLowercase s) <;> simp [okPart, h]

/-- Helper: a parse succeeds exactly when the ASCII-lowercasing of the input
is one of the thirteen identifiers. -/
lemma from_str_ok_iff (s : String) :
    (∃ v, ValueHint.from_str s = .ok v) ↔ toAsciiLowercase s ∈ hintIdentifiers := by
  rw [hintIdentifiers, ← lookup_isSome_iff_mem (toAsciiLowercase s) hintTable]
  unfold ValueHint.from_str
  cases h : hintTable.lookup (toAsciiLowercase s) <;> simp [h]

/-- Helper: when the lowercased input matches no identifier, the parser
returns the error string embedding the original input. -/
lemma from_str_error_of_not_mem (s : String)
    (h : toAsciiLowercase s ∉ hintIdentifiers) :
    ValueHint.from_str s = .error ("unknown ValueHint: `" ++ s ++ "`") := by
  rw [hintIdentifiers, ← lookup_isSome_iff_mem (toAsciiLowercase s) hintTable] at h
  unfold ValueHint.from_str
  cases hl : hintTable.lookup (toAsciiLowercase s) with
  | none => rfl
  | some v => exact absurd (by simp [hl]) h

/-- Helper: every successful parse result is one of the thirteen unit
variants. -/
lemma from_str_ok_mem_unitHints (s : String) (v : ValueHint)
    (h : ValueHint.from_str s = .ok v) : v ∈ unitHints := by
  unfold ValueHint.from_str at h
  cases hl : hintTable.lookup (toAsciiLowercase s) with
  | none => rw [hl] at h; exact absurd h (by simp)
  | some w =>
    rw [hl] at h
    have hw : w = v := by simpa using h
    subst hw
    exact lookup_mem_snd _ _ _ hl

/-- Claim C1: for every non-data variant of `ValueHint`, parsing the
variant's name lowercased with no separators yields exactly that variant. -/
theorem c1_parse_canonical_identifiers :
    ValueHint.from_str "unknown" = .ok .Unknown ∧
    ValueHint.from_str "other" = .ok .Other ∧
    ValueHint.from_str "anypath" = .ok .AnyPath ∧
    ValueHint.from_str "filepath" = .ok .FilePath ∧
    ValueHint.from_str "dirpath" = .ok .DirPath ∧
    ValueHint.from_str "executablepath" = .ok .ExecutablePath ∧
    ValueHint.from_str "commandname" = .ok .CommandName ∧
    ValueHint.from_str "commandstring" = .ok .CommandString ∧
    ValueHint.from_str "commandwitharguments" = .ok .CommandWithArguments ∧
    ValueHint.from_str "username" = .ok .Username ∧
    ValueHint.from_str "hostname" = .ok .Hostname ∧
    ValueHint.from_str "url" = .ok .Url ∧
    ValueHint.from_str "emailaddress" = .ok .EmailAddress := by
  decide

/-- Claim C5: the default hint category takes no inputs, cannot fail, and is
exactly the `Unknown` variant. -/
theorem c5_default_is_unknown : ValueHint.default = ValueHint.Unknown := rfl

/-- Claim C2: a parse succeeds exactly when the input is, up to ASCII case,
one of the thirteen table identifiers; every other string, the empty string,
"not-a-real-hint" and any spelling of `DynamicValues` included, yields the
single unrecognized-identifier error, which embeds the offending input. -/
theorem c2_parse_accepts_exactly_the_table (s : String) :
    ((∃ v, ValueHint.from_str s = .ok v) ↔ toAsciiLowercase s ∈ hintIdentifiers) ∧
    (toAsciiLowercase s ∉ hintIdentifiers →
      ValueHint.from_str s = .error ("unknown ValueHint: `" ++ s ++ "`")) ∧
    (∃ e, ValueHint.from_str "" = .error e) ∧
    (∃ e, ValueHint.from_str "not-a-real-hint" = .error e) ∧
    (∃ e, ValueHint.from_str "dynamicvalues" = .error e) ∧
    (∃ e, ValueHint.from_str "DynamicValues" = .error e) := by
  refine ⟨from_str_ok_iff s, from_str_error_of_not_mem s, ?_, ?_, ?_, ?_⟩ <;>
    exact ⟨_, rfl⟩

/-- Witness for claim C2 at the concrete input "not-a-real-hint". -/
theorem c2_witness :
    ValueHint.from_str "not-a-real-hint" =
      .error ("unknown ValueHint: `" ++ "not-a-real-hint" ++ "`") :=
  (c2_parse_accepts_exactly_the_table "not-a-real-hint").2.1 (by decide)

/-- Claim C3: no parse ever returns `DynamicValues`; every successful parse
result is one of the thirteen unit variants. -/
theorem c3_parse_never_returns_dynamic (s : String) (v : ValueHint)
    (h : ValueHint.from_str s = .ok v) :
    v ∈ unitHints ∧ ∀ cmd, v ≠ ValueHint.DynamicValues cmd := by
  have hv := from_str_ok_mem_unitHints s v h
  refine ⟨hv, ?_⟩
  intro cmd hc
  subst hc
  simp [unitHints, hintTable] at hv

/-- Witness for claim C3 at the concrete input "url". -/
theorem c3_witness :
    ValueHint.Url ∈ unitHints ∧
      ∀ cmd, ValueHint.Url ≠ ValueHint.DynamicValues cmd :=
  c3_parse_never_returns_dynamic "url" ValueHint.Url (by decide)

/-- Claim C4 counterexample: at the failing input "bogus" the parser's error
message is "unknown ValueHint: \x7bbacktick\x7dbogus\x7bbacktick\x7d", not
"unknown hint: bogus" as the claim states. -/
theorem c4_counterexample :
    ValueHint.from_str "bogus" = .error "unknown ValueHint: `bogus`" ∧
    ("unknown ValueHint: `bogus`" : String) ≠ "unknown hint: bogus" := by
  constructor
  · decide
  · decide

/-- Claim C4 (amended): when a parse fails, the error message is
"unknown ValueHint:" followed by the original input exactly as given (not
lowercased), wrapped in backticks. -/
theorem c4_error_carries_original_input (s : String)
    (h : toAsciiLowercase s ∉ hintIdentifiers) :
    ValueHint.from_str s = .error ("unknown ValueHint: `" ++ s ++ "`") :=
  from_str_error_of_not_mem s h

/-- Witness for claim C4 at the concrete mixed-case input "BOGUS", showing
the error embeds the original spelling, not the lowercased one. -/
theorem c4_witness :
    ValueHint.from_str "BOGUS" =
      .error ("unknown ValueHint: `" ++ "BOGUS" ++ "`") :=
  c4_error_carries_original_input "BOGUS" (by decide)

/-- Claim C6 counterexample: at the failing input "BOGUS", whose lowercasing
is "bogus", the two parse results differ as whole values, because the error
payload embeds the original spelling of the input. -/
theorem c6_counterexample :
    toAsciiLowercase "BOGUS" = "bogus" ∧
    ValueHint.from_str "BOGUS" ≠ ValueHint.from_str "bogus" := by
  constructor
  · decide
  · decide

/-- Claim C6 (amended): parsing is case-insensitive up to the error payload:
any two inputs with the same ASCII-lowercasing have the same successful
component (same success or failure, and the same category on success); in
particular "FilePath", "FILEPATH" and "filepath" all parse to `FilePath`.
Full result equality fails only because a failing parse embeds the original
input in its error message. -/
theorem c6_case_insensitive_up_to_error (s t : String)
    (h : toAsciiLowercase s = toAsciiLowercase t) :
    okPart (ValueHint.from_str s) = okPart (ValueHint.from_str t) ∧
    ValueHint.from_str "FilePath" = .ok .FilePath ∧
    ValueHint.from_str "FILEPATH" = .ok .FilePath ∧
    ValueHint.from_str "filepath" = .ok .FilePath := by
  refine ⟨?_, by decide, by decide, by decide⟩
  rw [okPart_from_str, okPart_from_str, h]

/-- Witness for claim C6 at the concrete inputs "FILEPATH" and "filepath". -/
theorem c6_witness :
    okPart (ValueHint.from_str "FILEPATH") = okPart (ValueHint.from_str "filepath") ∧
    ValueHint.from_str "FilePath" = .ok .FilePath ∧
    ValueHint.from_str "FILEPATH" = .ok .FilePath ∧
    ValueHint.from_str "filepath" = .ok .FilePath :=
  c6_case_insensitive_up_to_error "FILEPATH" "filepath" (by decide)

/-- Claim C7: the derived equality on `ValueHint` holds exactly for the same
variant with, for `DynamicValues`, the same command text: it coincides with
propositional equality, two `DynamicValues` are equal exactly when their
commands are, and the spec's concrete disequalities hold. -/
theorem c7_equality_structure :
    (∀ a b : ValueHint, ValueHint.beq a b = true ↔ a = b) ∧
    (∀ s t : String,
      ValueHint.beq (.DynamicValues s) (.DynamicValues t) = true ↔ s = t) ∧
    ValueHint.beq (.DynamicValues "a") (.DynamicValues "b") = false ∧
    ValueHint.beq (.DynamicValues "a") .Unknown = false := by
  refine ⟨?_, ?_, by decide, by decide⟩
  · intro a b
    cases a <;> cases b <;> simp [ValueHint.beq]
  · intro s t
    simp [ValueHint.beq]

/-- Claim C8: round-trip over the static table: whenever a variant has a
canonical identifier (every non-data variant does), parsing that identifier
returns the very same variant, so re-deriving the identifier from the parse
result yields the original string. -/
theorem c8_roundtrip_static_table (v : ValueHint) (id : String)
    (h : ValueHint.canonicalIdentifier v = some id) :
    ValueHint.from_str id = .ok v ∧ ValueHint.canonicalIdentifier v = some id := by
  refine ⟨?_, h⟩
  cases v <;> simp only [ValueHint.canonicalIdentifier, Option.some.injEq] at h <;>
    first
      | (subst h; decide)
      | exact absurd h (by simp)

/-- Witness for claim C8 at the concrete variant `FilePath`. -/
theorem c8_witness :
    ValueHint.from_str "filepath" = .ok .FilePath ∧
    ValueHint.canonicalIdentifier .FilePath = some "filepath" :=
  c8_roundtrip_static_table .FilePath "filepath" rfl

/-- Claim C9: in this embedding both operations are total functions of their
argument alone (the source reads no state and performs no I/O), so parsing is
deterministic, every parse returns a value (ok or error, never divergence),
and the default is the constant `Unknown`. -/
theorem c9_pure_deterministic (s t : String) (h : s = t) :
    ValueHint.from_str s = ValueHint.from_str t ∧
    ((ValueHint.from_str s).isOk = true ∨
      ∃ e, ValueHint.from_str s = .error e) ∧
    ValueHint.default = ValueHint.Unknown := by
  subst h
  refine ⟨rfl, ?_, rfl⟩
  cases hr : ValueHint.from_str s with
  | ok v => exact Or.inl (by simp [Except.isOk, Except.toBool, hr])
  | error e => exact Or.inr ⟨e, rfl⟩

/-- Witness for claim C9 at the concrete input "url". -/
theorem c9_witness :
    ValueHint.from_str "url" = ValueHint.from_str "url" ∧
    ((ValueHint.from_str "url").isOk = true ∨
      ∃ e, ValueHint.from_str "url" = .error e) ∧
    ValueHint.default = ValueHint.Unknown :=
  c9_pure_deterministic "url" "url" rfl

/-- Claim C10: the case folding in the parser is ASCII-only: "FILEPATH" is
accepted, while "FİLEPATH" (with the non-ASCII dotted capital I, which
lowercases toward ASCII "i" only under full Unicode case mapping) is
rejected; in general a parse succeeds exactly when the ASCII-lowercasing of
the input literally equals one of the thirteen table identifiers. -/
theorem c10_ascii_only_case_folding :
    ValueHint.from_str "FILEPATH" = .ok .FilePath ∧
    ValueHint.from_str "FİLEPATH" =
      .error ("unknown ValueHint: `" ++ "FİLEPATH" ++ "`") ∧
    ∀ s, (∃ v, ValueHint.from_str s = .ok v) ↔ toAsciiLowercase s ∈ hintIdentifiers := by
  refine ⟨by decide, by decide, ?_⟩
  intro s
  exact from_str_ok_iff s

/-- Witness for claim C10, instantiating its universal part at the concrete
input "hostname". -/
theorem c10_witness :
    (∃ v, ValueHint.from_str "hostname" = .ok v) ↔
      toAsciiLowercase "hostname" ∈ hintIdentifiers :=
  c10_ascii_only_case_folding.2.2 "hostname"
